import Mathlib

/-!
Verification of the data-access layer of ftp-user-svc (src/data/data.go)
against its natural-language specification.

Shallow embedding conventions:
* Go strings are modelled as `String` / `List Char` (a `String` in this
  Lean version is a structure around a `List Char`, field `data`).
* `uint32` arithmetic is modelled with `Nat` and explicit reduction
  modulo `2 ^ 32` at the operations that can wrap.
* Database tables are modelled as lists of row structures; the SQL
  executed by an operation is translated into the corresponding pure
  computation over those lists, and the engine's duplicate-key and
  foreign-key failures are modelled as errors carrying the
  dialect-specific signature text that the Go code matches on.
* Fallible operations return `Except String` values, an `Option String`
  standing for Go's `error` result (`none` = `nil`).
-/

namespace FtpUserSvc

/-! ## Driver names, error texts and status constants (data.go lines 46-83) -/

/-- data.go: `MySQLDriverName = "mysql"`. -/
def MySQLDriverName : String := "mysql"

/-- data.go: `PostgreSQLDriverName = "postgres"`. -/
def PostgreSQLDriverName : String := "postgres"

/-- data.go: `ErrUserNotFound = "No matching user found"`. -/
def ErrUserNotFound : String := "No matching user found"

/-- data.go: `ErrMappingNotFound = "No matching mapping found"`. -/
def ErrMappingNotFound : String := "No matching mapping found"

/-- data.go: `ErrFTPAccountExists` message. -/
def ErrFTPAccountExists : String := "An FTP Account for the specified username already exists"

/-- data.go mapping-create status `MappingError = iota` (0). -/
def MappingError : Nat := 0

/-- data.go mapping-create status `MappingFTPAccountNotFound` (1). -/
def MappingFTPAccountNotFound : Nat := 1

/-- data.go mapping-create status `MappingInserted` (2). -/
def MappingInserted : Nat := 2

/-- data.go mapping-create status `MappingUpdated` (3). -/
def MappingUpdated : Nat := 3

/-- data.go: `connectionRetryAttempts = 10`. -/
def connectionRetryAttempts : Nat := 10

/-- data.go: `retrySleepSeconds = 5`. -/
def retrySleepSeconds : Nat := 5

/-- The uint32 modulus. -/
def U32 : Nat := 2 ^ 32

/-- Go `strings.Contains s sub`: `sub` occurs as a contiguous substring
of `s` (the empty string is contained in everything, as in Go). -/
def strContains (s sub : List Char) : Bool := decide (sub <:+: s)

/-! ## Dialect adapter (data.go `fmtQueryForDriver`, lines 120-132)

The two characters rewritten by the adapter, written via code points to
keep the file free of quoting noise: 96 is the backtick, 34 the double
quote. -/

/-- The backtick character (code point 96). -/
def backtickChar : Char := Char.ofNat 96

/-- The double-quote character (code point 34). -/
def dblQuoteChar : Char := Char.ofNat 34

/-- Go `strings.ReplaceAll result backtick doublequote`: both arguments are
single characters, so the call is a character-wise map. -/
def replaceBackticks (s : List Char) : List Char :=
  s.map fun c => if c = backtickChar then dblQuoteChar else c

/-- Go `fmt.Sprintf` of a dollar sign followed by the decimal digits of `p`
(the numbered placeholder for Dialect B). -/
def numberWord (p : Nat) : List Char := '$' :: Nat.toDigits 10 p

/-- Go `strings.Replace result qmark param 1`: replace the first occurrence
of the question-mark character by `repl`. -/
def replaceFirstQ (repl : List Char) : List Char → List Char
  | [] => []
  | c :: rest => if c = '?' then repl ++ rest else c :: replaceFirstQ repl rest

/-- data.go `fmtQueryForDriver` (lines 120-132): for the postgres driver,
replace every backtick by a double quote, then replace the first ten
question marks, left to right, by the numbered placeholders 1 to 10
(the loop runs `for p := 1; p < 11; p++`); any other driver returns the
query unmodified. -/
def fmtQueryForDriver (dbDriverName : String) (query : List Char) : List Char :=
  if dbDriverName = PostgreSQLDriverName then
    (List.range' 1 10).foldl (fun r p => replaceFirstQ (numberWord p) r) (replaceBackticks query)
  else query

/-- Decomposition of a query at its question-mark occurrences: the list of
maximal question-mark-free segments (`k` occurrences yield `k + 1`
segments). -/
def splitOnQ : List Char → List (List Char)
  | [] => [[]]
  | c :: rest =>
    if c = '?' then [] :: splitOnQ rest
    else
      match splitOnQ rest with
      | [] => [[c]]
      | t :: ts => (c :: t) :: ts

/-- Re-join segments with a question mark between consecutive segments
(left inverse of `splitOnQ`). -/
def joinQ : List (List Char) → List Char
  | [] => []
  | [s] => s
  | s :: t :: ts => s ++ '?' :: joinQ (t :: ts)

/-- Join segments placing the numbered placeholders `p, p+1, ...` between
consecutive segments: the expected Dialect B rewrite of a query whose
segments these are. -/
def joinNumbered : Nat → List (List Char) → List Char
  | _, [] => []
  | _, [s] => s
  | p, s :: t :: ts => s ++ numberWord p ++ joinNumbered (p + 1) (t :: ts)

/-! ## Dialect-specific error signatures (data.go lines 136-170) -/

/-- data.go `getPrimaryKeyErr` (lines 136-148): the duplicate/unique-key
violation signature of the active driver (empty for any other driver;
the two source `if` statements on distinct constants are an if/else
chain). -/
def getPrimaryKeyErr (dbDriverName : String) : String :=
  if dbDriverName = MySQLDriverName then "Error Code: 1062"
  else if dbDriverName = PostgreSQLDriverName then "duplicate key value violates unique constraint"
  else ""

/-- data.go `checkPrimaryKeyErr` (lines 149-152): substring match of the
error text against the primary-key signature. -/
def checkPrimaryKeyErr (dbDriverName : String) (err : String) : Bool :=
  strContains err.data (getPrimaryKeyErr dbDriverName).data

/-- data.go `getForeignKeyErr` (lines 153-165). -/
def getForeignKeyErr (dbDriverName : String) : String :=
  if dbDriverName = MySQLDriverName then "Error Code: 1452"
  else if dbDriverName = PostgreSQLDriverName then "violates foreign key constraint"
  else ""

/-- data.go `checkForeignKeyErr` (lines 166-170). -/
def checkForeignKeyErr (dbDriverName : String) (err : String) : Bool :=
  strContains err.data (getForeignKeyErr dbDriverName).data

/-! ## Mapping upsert (data.go `MappingCreate`, lines 400-430)

The two `ExecForDriver` calls are modelled by their outcomes: `insertErr`
and `updateErr` are the `error` results of the INSERT and of the UPDATE
(the UPDATE outcome is consulted only when the INSERT fails with the
primary-key signature, exactly as in the source). The returned pair is
(status, error). -/

def MappingCreate (dbDriverName : String) (insertErr updateErr : Option String) :
    Nat × Option String :=
  match insertErr with
  | none => (MappingInserted, none)
  | some e =>
    if checkPrimaryKeyErr dbDriverName e then
      match updateErr with
      | none => (MappingUpdated, none)
      | some e2 =>
        if checkForeignKeyErr dbDriverName e2 then (MappingFTPAccountNotFound, none)
        else (MappingError, some e2)
    else (MappingError, some e)

/-! ## Account and mapping rows -/

/-- A row of the `ftp_account` table (id, username, description, password;
the timestamp column is never read by the operations under proof). -/
structure AccountRow where
  id : Nat
  username : String
  description : String
  password : String
deriving DecidableEq

/-- A row of the `ftp_mapping` table. -/
structure MappingRow where
  system : String
  sysId : String
  ftpId : Nat
deriving DecidableEq

/-- data.go `FtpUser` struct (lines 86-91); the zero value of the
`Password` field is the empty string. -/
structure FtpUser where
  id : Nat
  username : String
  description : String
  password : String
deriving DecidableEq

/-! ## Account create (data.go `FtpUserCreate`, lines 559-588) -/

/-- The storage engine's INSERT into `ftp_account`: the schema declares
`username` unique (`uc_username`), so inserting a username that already
exists fails with the driver's duplicate-key message (modelled as the
dialect signature itself); otherwise the row is appended with the
server-assigned id `newId`. -/
def dbInsertAccount (dbDriverName : String) (accounts : List AccountRow) (newId : Nat)
    (user : FtpUser) : Except String (List AccountRow) :=
  if accounts.any (fun a => a.username == user.username) then
    Except.error (getPrimaryKeyErr dbDriverName)
  else
    Except.ok (accounts ++ [⟨newId, user.username, user.description, user.password⟩])

/-- data.go lines 567-574: classification of an INSERT failure — the
duplicate-key signature becomes `ErrFTPAccountExists`, everything else is
returned unmodified. -/
def ftpUserCreateClassifyErr (dbDriverName : String) (e : String) : String :=
  if checkPrimaryKeyErr dbDriverName e then ErrFTPAccountExists else e

/-- data.go lines 576-587: `select min(id) from ftp_account where
username = ?` after a successful insert. -/
def minUserID (accounts : List AccountRow) (username : String) : Nat :=
  match (accounts.filter (fun a => a.username == username)).map (fun a => a.id) with
  | [] => 0
  | x :: xs => xs.foldl Nat.min x

/-- data.go `FtpUserCreate` (lines 559-588): attempt the INSERT; on a
duplicate-key-signature failure return `ErrFTPAccountExists`, on any other
failure return the error unmodified; on success resolve the new id.
Returns the table after the call together with the result. -/
def FtpUserCreate (dbDriverName : String) (accounts : List AccountRow) (newId : Nat)
    (user : FtpUser) : List AccountRow × Except String Nat :=
  match dbInsertAccount dbDriverName accounts newId user with
  | Except.error e => (accounts, Except.error (ftpUserCreateClassifyErr dbDriverName e))
  | Except.ok accounts2 => (accounts2, Except.ok (minUserID accounts2 user.username))

/-! ## Account get by id (data.go `FtpUserGet`, lines 524-556) -/

/-- data.go `FtpUserGet`: `select id, username, description from
ftp_account where id = ?`; the first returned row is scanned (the
password column is not selected, so the scanned struct keeps the zero
value for it); zero rows yield `ErrUserNotFound`. -/
def FtpUserGet (accounts : List AccountRow) (id : Nat) : Except String FtpUser :=
  match accounts.filter (fun a => a.id == id) with
  | [] => Except.error ErrUserNotFound
  | a :: _ => Except.ok ⟨a.id, a.username, a.description, ""⟩

/-! ## Lookup by username (data.go `FtpUserLookup`, lines 274-339) -/

/-- The system name hard-coded in the lookup query. -/
def billSys1 : String := "BillSys1"

/-- The sftpgo user assembled by `FtpUserLookup`; only the fields the
claims are about are modelled (the Azure filesystem configuration carried
by each virtual folder is configuration plumbing with no data-dependent
logic). -/
structure SftpgoUser where
  id : Nat
  username : String
  description : String
  password : String
  virtualFolders : List String
deriving DecidableEq

/-- The rows of the lookup query: `ftp_account` joined with `ftp_mapping`
on `a.id = m.ftp_id`, restricted to `a.username = username and
m.system = 'BillSys1'`, selecting the account columns and the mapping id
(the folder name). Row order inside the engine is unspecified; the model
fixes the nested-loop order, which none of the proved properties depend
on beyond "last row". -/
def ftpUserLookupRows (accounts : List AccountRow) (mappings : List MappingRow)
    (username : String) : List (AccountRow × String) :=
  accounts.flatMap fun a =>
    mappings.filterMap fun m =>
      if a.id = m.ftpId ∧ a.username = username ∧ m.system = billSys1 then some (a, m.sysId)
      else none

/-- data.go `FtpUserLookup` (lines 274-339): scan every joined row into the
same user variable (so the scalar fields end up those of the last row,
password included), collect one virtual folder per row; if exactly one
folder was found it is moved onto the root filesystem configuration and
the folder list is cleared; zero rows yield `ErrUserNotFound`. -/
def FtpUserLookup (accounts : List AccountRow) (mappings : List MappingRow)
    (username : String) : Except String SftpgoUser :=
  let rows := ftpUserLookupRows accounts mappings username
  match rows.getLast? with
  | none => Except.error ErrUserNotFound
  | some (a, _) =>
    let folders := rows.map fun r => r.2
    Except.ok ⟨a.id, a.username, a.description, a.password,
      if folders.length = 1 then [] else folders⟩

/-! ## Paged selection (data.go `FtpUserGetSelection`, lines 435-521) -/

/-- data.go lines 467-469: `if pageSize == 0 then pageSize = 30`. -/
def normPageSize (pageSize : Nat) : Nat := if pageSize = 0 then 30 else pageSize

/-- data.go lines 470-472: `if page == 0 then page = 1`. -/
def normPage (page : Nat) : Nat := if page = 0 then 1 else page

/-- data.go line 475: `offset := (page - 1) * pageSize` on the normalized
values, in uint32 arithmetic (the product wraps modulo `2 ^ 32`; the
subtraction cannot wrap since the normalized page is at least 1). -/
def selectionOffset (page pageSize : Nat) : Nat :=
  ((normPage page - 1) * normPageSize pageSize) % U32

/-- data.go lines 477-480: integer division of the total count by the
normalized page size, incremented (uint32 increment, hence the modulus)
when the remainder is non-zero. -/
def selectionTotalPages (totalItems pageSize : Nat) : Nat :=
  (totalItems / normPageSize pageSize +
    if totalItems % normPageSize pageSize > 0 then 1 else 0) % U32

/-- The spec's own formula (§8): `total-pages = ceil(total-items /
pageSize)`, written with the standard natural-number ceiling division.
Stated from the spec's words, to be compared against the code's
`selectionTotalPages`. -/
def specCeilDiv (a b : Nat) : Nat := (a + b - 1) / b

/-- The search filter (data.go lines 441-446): `username like ? or
description like ?` with the pattern `percent search percent`, i.e.
substring containment (wildcard characters inside the search term itself
are not modelled). -/
def searchMatch (search : String) (a : AccountRow) : Bool :=
  strContains a.username.data search.data || strContains a.description.data search.data

/-- data.go `FtpUsers` result struct (lines 114-118). -/
structure FtpUsers where
  ftpusers : List FtpUser
  totalItems : Nat
  totalPages : Nat
deriving DecidableEq

/-- data.go `FtpUserGetSelection` (lines 435-521): count the rows matching
the optional filter, normalize page/pageSize, compute offset and total
pages, then return the filtered rows ordered by id with the dialect limit
clause applied (`drop offset, take pageSize` under either dialect's
clause); each scanned user gets an explicitly cleared password
(line 504). The count is assumed to fit in uint32 (a larger count would
make the Go scan fail, not wrap). -/
def FtpUserGetSelection (accounts : List AccountRow) (page pageSize : Nat)
    (search : String) : FtpUsers :=
  let filtered := if search = "" then accounts else accounts.filter (searchMatch search)
  let totalItems := filtered.length
  let ordered := filtered.insertionSort (fun a b => a.id ≤ b.id)
  let users := ((ordered.drop (selectionOffset page pageSize)).take (normPageSize pageSize)).map
    fun a => (⟨a.id, a.username, a.description, ""⟩ : FtpUser)
  ⟨users, totalItems, selectionTotalPages totalItems pageSize⟩

/-! ## Constructor (data.go `NewDB`, lines 223-253) -/

/-- Go `strings.Split s sep` specialized to the separator used by `NewDB`
(colon slash slash): split around each left-to-right non-overlapping
occurrence of the separator. -/
def splitSep : List Char → List (List Char)
  | ':' :: '/' :: '/' :: rest => [] :: splitSep rest
  | c :: rest =>
    match splitSep rest with
    | [] => [[c]]
    | t :: ts => (c :: t) :: ts
  | [] => [[]]

/-- The separator characters of the connection-string scheme. -/
def sepChars : List Char := [':', '/', '/']

/-- Outcome of `NewDB`'s argument handling. -/
inductive NewDBResult where
  | errNoProtocol : NewDBResult
  | errUnsupported (protocol : List Char) : NewDBResult
  | ok (dbDriverName : String) (connStr : List Char) : NewDBResult
deriving DecidableEq

/-- data.go `NewDB` (lines 223-253), up to the connection attempt: split
the data source on the separator; fewer than two segments is the
"protocol not specified" error; segment 0 equal to `mysql` keeps
segment 1 as the connection string, equal to `postgres` keeps the whole
original string; anything else is the "protocol not supported" error.
The subsequent `attemptConnection` call (reached only in the `ok` cases)
is modelled separately. -/
def NewDB (dataSourceName : List Char) : NewDBResult :=
  match splitSep dataSourceName with
  | s0 :: s1 :: _ =>
    if s0 = MySQLDriverName.data then NewDBResult.ok MySQLDriverName s1
    else if s0 = PostgreSQLDriverName.data then
      NewDBResult.ok PostgreSQLDriverName dataSourceName
    else NewDBResult.errUnsupported s0
  | _ => NewDBResult.errNoProtocol

/-! ## Connection retry loop (data.go `attemptConnection`, lines 186-211)

`outcomes n` is the `error` result of the `sql.Open` call on attempt `n`
(`none` = success). The loop body on failure sleeps five seconds, resets
`err` to nil and continues; on success it breaks. The function returns
(returned error, attempts made, seconds slept): the returned error is the
value of `err` after the loop (the `if err != nil` check at line 199). -/

def connLoop (outcomes : Nat → Option String) (attempt : Nat) :
    Nat → Option String × Nat × Nat
  | 0 => (none, 0, 0)
  | remaining + 1 =>
    match outcomes attempt with
    | some _ =>
      let r := connLoop outcomes (attempt + 1) remaining
      (r.1, r.2.1 + 1, r.2.2 + retrySleepSeconds)
    | none => (none, 1, 0)

def attemptConnection (outcomes : Nat → Option String) : Option String × Nat × Nat :=
  let r := connLoop outcomes 0 connectionRetryAttempts
  match r.1 with
  | some e => (some e, r.2.1, r.2.2)
  | none => (none, r.2.1, r.2.2)

/-! ## Sample inputs used by the witness theorems -/

/-- A dialect-neutral query with two placeholders. -/
def sampleQuery : List Char := "select id, username from t where a = ? and b = ?".data

/-- A query consisting of eleven placeholders. -/
def sampleQueryEleven : List Char := "???????????".data

/-- A data source whose separator occurs twice after the scheme. -/
def dsnMysqlTwice : List Char := "mysql://a://b".data

/-- What `NewDB` keeps for `dsnMysqlTwice`: the segment between the two
separator occurrences. -/
def dsnMysqlTwiceKept : List Char := "a".data

/-- What stripping the scheme prefix from `dsnMysqlTwice` would give. -/
def dsnMysqlTwiceStripped : List Char := "a://b".data

/-- A data source with no separator at all. -/
def dsnNoSep : List Char := "hostonly".data

/-- An unsupported scheme and a remainder. -/
def fooScheme : List Char := "foo".data

/-- Remainder strings for the constructor witnesses. -/
def plainRest : List Char := "x".data

/-- A one-account table. -/
def sampleAccounts : List AccountRow := [⟨1, "alice", "first user", "pw1"⟩]

/-- A mapping of the sample account under the hard-coded system. -/
def sampleMappings : List MappingRow := [⟨"BillSys1", "sys-7", 1⟩]

/-- A fresh user colliding with `sampleAccounts` on username. -/
def sampleNewUser : FtpUser := ⟨0, "alice", "second", "pw2"⟩

/-- A driver error text that matches neither dialect signature. -/
def sampleOpaqueErr : String := "connection reset by peer"

/-- An update failure text carrying the postgres foreign-key signature. -/
def sampleFkErr : String := "pq: insert or update violates foreign key constraint fk_ftp_account"

/-- An insert failure text carrying the postgres duplicate-key signature. -/
def samplePkErr : String := "pq: duplicate key value violates unique constraint ftp_mapping_pkey"

/-- An open-attempt outcome function on which every attempt fails. -/
def allFailOutcomes : Nat → Option String := fun _ => some sampleOpaqueErr

/-- The username of the sample account. -/
def aliceName : String := "alice"

/-- The sftpgo user that the lookup of alice returns on the sample tables
(one joined row, so the single folder is moved to the root and the folder
list is cleared). -/
def sampleLookupUser : SftpgoUser := ⟨1, "alice", "first user", "pw1", []⟩

/-- The user returned by get-by-id 1 on the sample table: the stored row
with an unpopulated password. -/
def sampleGotUser : FtpUser := ⟨1, "alice", "first user", ""⟩

/-! # Lemmas -/

/-! ## Dialect adapter -/

theorem replaceFirstQ_of_not_mem (r : List Char) :
    ∀ s : List Char, '?' ∉ s → replaceFirstQ r s = s := by
  intro s hs
  induction s with
  | nil => rfl
  | cons c rest ih =>
    have hc : ¬ c = '?' := fun h => hs (h ▸ List.mem_cons_self c rest)
    have hrest : '?' ∉ rest := fun h => hs (List.mem_cons_of_mem c h)
    simp [replaceFirstQ, hc, ih hrest]

theorem replaceFirstQ_append_left (r : List Char) :
    ∀ (a t : List Char), '?' ∉ a → replaceFirstQ r (a ++ t) = a ++ replaceFirstQ r t := by
  intro a t ha
  induction a with
  | nil => simp
  | cons c rest ih =>
    have hc : ¬ c = '?' := fun h => ha (h ▸ List.mem_cons_self c rest)
    have hrest : '?' ∉ rest := fun h => ha (List.mem_cons_of_mem c h)
    simp [replaceFirstQ, hc, ih hrest]

theorem foldl_replace_of_not_mem :
    ∀ (L : List Nat) (s : List Char), '?' ∉ s →
      L.foldl (fun r q => replaceFirstQ (numberWord q) r) s = s := by
  intro L
  induction L with
  | nil => intro s _; rfl
  | cons p L ih =>
    intro s hs
    simp only [List.foldl_cons]
    rw [replaceFirstQ_of_not_mem _ s hs]
    exact ih s hs

theorem toDigitsCore_chars :
    ∀ (fuel n : Nat) (acc : List Char),
      (∀ c ∈ acc, c ≠ '?' ∧ c ≠ backtickChar) →
      ∀ c ∈ Nat.toDigitsCore 10 fuel n acc, c ≠ '?' ∧ c ≠ backtickChar := by
  intro fuel
  induction fuel with
  | zero => intro n acc hacc; simpa [Nat.toDigitsCore] using hacc
  | succ fuel ih =>
    intro n acc hacc c hc
    have hd : Nat.digitChar (n % 10) ≠ '?' ∧ Nat.digitChar (n % 10) ≠ backtickChar := by
      have h10 : n % 10 < 10 := Nat.mod_lt _ (by norm_num)
      revert h10
      have : ∀ k, k < 10 → Nat.digitChar k ≠ '?' ∧ Nat.digitChar k ≠ backtickChar := by decide
      exact this (n % 10)
    have hacc2 : ∀ x ∈ Nat.digitChar (n % 10) :: acc, x ≠ '?' ∧ x ≠ backtickChar := by
      intro x hx
      rcases List.mem_cons.mp hx with h | h
      · exact h ▸ hd
      · exact hacc x h
    simp only [Nat.toDigitsCore] at hc
    by_cases hz : n / 10 = 0
    · rw [if_pos hz] at hc
      exact hacc2 c hc
    · rw [if_neg hz] at hc
      exact ih (n / 10) _ hacc2 c hc

theorem numberWord_chars (p : Nat) : ∀ c ∈ numberWord p, c ≠ '?' ∧ c ≠ backtickChar := by
  intro c hc
  rcases List.mem_cons.mp hc with h | h
  · subst h; constructor <;> decide
  · exact toDigitsCore_chars _ _ [] (by simp) c h

theorem numberWord_no_q (p : Nat) : '?' ∉ numberWord p :=
  fun h => (numberWord_chars p '?' h).1 rfl

theorem foldl_replace_append_left :
    ∀ (L : List Nat) (a t : List Char), '?' ∉ a →
      L.foldl (fun r q => replaceFirstQ (numberWord q) r) (a ++ t) =
        a ++ L.foldl (fun r q => replaceFirstQ (numberWord q) r) t := by
  intro L
  induction L with
  | nil => intro a t _; rfl
  | cons p L ih =>
    intro a t ha
    simp only [List.foldl_cons]
    rw [replaceFirstQ_append_left _ a t ha]
    exact ih a _ ha

theorem replaceFirstQ_cons_q (r b : List Char) : replaceFirstQ r ('?' :: b) = r ++ b := by
  simp [replaceFirstQ]

theorem splitOnQ_cons_q (rest : List Char) : splitOnQ ('?' :: rest) = [] :: splitOnQ rest := by
  simp [splitOnQ]

theorem joinQ_cons (s : List Char) (ts : List (List Char)) (h : ts ≠ []) :
    joinQ (s :: ts) = s ++ '?' :: joinQ ts := by
  cases ts with
  | nil => exact absurd rfl h
  | cons t ts => rfl

theorem joinNumbered_cons (p : Nat) (s : List Char) (ts : List (List Char)) (h : ts ≠ []) :
    joinNumbered p (s :: ts) = s ++ numberWord p ++ joinNumbered (p + 1) ts := by
  cases ts with
  | nil => exact absurd rfl h
  | cons t ts => rfl

theorem splitOnQ_ne_nil : ∀ s : List Char, splitOnQ s ≠ [] := by
  intro s
  induction s with
  | nil => simp [splitOnQ]
  | cons c rest ih =>
    by_cases hc : c = '?'
    · simp [splitOnQ, hc]
    · simp only [splitOnQ, if_neg hc]
      cases h : splitOnQ rest with
      | nil => simp
      | cons t ts => simp

theorem joinQ_splitOnQ : ∀ s : List Char, joinQ (splitOnQ s) = s := by
  intro s
  induction s with
  | nil => rfl
  | cons c rest ih =>
    by_cases hc : c = '?'
    · subst hc
      rw [splitOnQ_cons_q, joinQ_cons _ _ (splitOnQ_ne_nil rest), ih]
      rfl
    · simp only [splitOnQ, if_neg hc]
      cases h : splitOnQ rest with
      | nil => exact absurd h (splitOnQ_ne_nil rest)
      | cons t ts =>
        rw [h] at ih
        cases ts with
        | nil =>
          simp only [joinQ] at ih ⊢
          rw [ih]
        | cons u us =>
          rw [joinQ_cons _ _ (by simp)] at ih ⊢
          simp only [List.cons_append]
          rw [ih]

theorem splitOnQ_no_q : ∀ (s : List Char), ∀ t ∈ splitOnQ s, '?' ∉ t := by
  intro s
  induction s with
  | nil => intro t ht; simp [splitOnQ] at ht; simp [ht]
  | cons c rest ih =>
    intro t ht
    by_cases hc : c = '?'
    · simp only [splitOnQ, if_pos hc] at ht
      rcases List.mem_cons.mp ht with h | h
      · simp [h]
      · exact ih t h
    · simp only [splitOnQ, if_neg hc] at ht
      cases h : splitOnQ rest with
      | nil => exact absurd h (splitOnQ_ne_nil rest)
      | cons u us =>
        rw [h] at ht
        rcases List.mem_cons.mp ht with h2 | h2
        · subst h2
          intro hmem
          rcases List.mem_cons.mp hmem with h3 | h3
          · exact hc h3.symm
          · exact ih u (h ▸ List.mem_cons_self u us) h3
        · exact ih t (h ▸ List.mem_cons_of_mem u h2)

theorem splitOnQ_count : ∀ s : List Char, (splitOnQ s).length = s.count '?' + 1 := by
  intro s
  induction s with
  | nil => simp [splitOnQ]
  | cons c rest ih =>
    by_cases hc : c = '?'
    · subst hc
      simp only [splitOnQ, if_pos rfl, List.length_cons, List.count_cons]
      simp [ih]
    · simp only [splitOnQ, if_neg hc]
      cases h : splitOnQ rest with
      | nil => exact absurd h (splitOnQ_ne_nil rest)
      | cons u us =>
        rw [h] at ih
        simp only [List.length_cons] at ih
        simp only [List.length_cons, List.count_cons]
        have hbeq : (c == '?') = false := by
          simp [hc]
        simp [hbeq, ih]

theorem splitOnQ_chars : ∀ (s : List Char), ∀ t ∈ splitOnQ s, ∀ c ∈ t, c ∈ s := by
  intro s
  induction s with
  | nil => intro t ht; simp [splitOnQ] at ht; simp [ht]
  | cons c rest ih =>
    intro t ht d hd
    by_cases hc : c = '?'
    · simp only [splitOnQ, if_pos hc] at ht
      rcases List.mem_cons.mp ht with h | h
      · subst h; simp at hd
      · exact List.mem_cons_of_mem c (ih t h d hd)
    · simp only [splitOnQ, if_neg hc] at ht
      cases h : splitOnQ rest with
      | nil => exact absurd h (splitOnQ_ne_nil rest)
      | cons u us =>
        rw [h] at ht
        rcases List.mem_cons.mp ht with h2 | h2
        · subst h2
          rcases List.mem_cons.mp hd with h3 | h3
          · exact h3 ▸ List.mem_cons_self c rest
          · exact List.mem_cons_of_mem c (ih u (h ▸ List.mem_cons_self u us) d h3)
        · exact List.mem_cons_of_mem c (ih t (h ▸ List.mem_cons_of_mem u h2) d hd)

theorem mem_joinNumbered :
    ∀ (segs : List (List Char)) (p : Nat) (c : Char), c ∈ joinNumbered p segs →
      (∃ t ∈ segs, c ∈ t) ∨ ∃ q : Nat, c ∈ numberWord q := by
  intro segs
  induction segs with
  | nil => intro p c hc; simp [joinNumbered] at hc
  | cons s ts ih =>
    intro p c hc
    cases ts with
    | nil =>
      simp only [joinNumbered] at hc
      exact Or.inl ⟨s, List.mem_cons_self s [], hc⟩
    | cons u us =>
      rw [joinNumbered_cons _ _ _ (by simp)] at hc
      rcases List.mem_append.mp hc with h | h
      · rcases List.mem_append.mp h with h2 | h2
        · exact Or.inl ⟨s, List.mem_cons_self s _, h2⟩
        · exact Or.inr ⟨p, h2⟩
      · rcases ih (p + 1) c h with ⟨t, ht, hct⟩ | h2
        · exact Or.inl ⟨t, List.mem_cons_of_mem s ht, hct⟩
        · exact Or.inr h2

theorem foldl_replace_segments :
    ∀ (n p : Nat) (segs : List (List Char)), (∀ t ∈ segs, '?' ∉ t) →
      (List.range' p n).foldl (fun r q => replaceFirstQ (numberWord q) r) (joinQ segs) =
        joinNumbered p (segs.take (n + 1)) ++
          (if segs.length ≤ n + 1 then [] else '?' :: joinQ (segs.drop (n + 1))) := by
  intro n
  induction n with
  | zero =>
    intro p segs hsegs
    simp only [List.range'_zero, List.foldl_nil]
    cases segs with
    | nil => simp [joinQ, joinNumbered]
    | cons s ts =>
      cases ts with
      | nil => simp [joinQ, joinNumbered]
      | cons u us =>
        have hlen : ¬ (s :: u :: us).length ≤ 1 := by simp
        rw [if_neg hlen]
        simp only [List.take_succ_cons, List.take_zero, List.drop_succ_cons, List.drop_zero]
        rw [joinQ_cons _ _ (by simp)]
        rfl
  | succ n ih =>
    intro p segs hsegs
    rw [List.range'_succ]
    simp only [List.foldl_cons]
    cases segs with
    | nil =>
      rw [replaceFirstQ_of_not_mem _ _ (by simp [joinQ])]
      rw [foldl_replace_of_not_mem _ _ (by simp [joinQ])]
      simp [joinQ, joinNumbered]
    | cons s ts =>
      cases ts with
      | nil =>
        have hq : '?' ∉ joinQ [s] := by
          simpa [joinQ] using hsegs s (List.mem_cons_self s [])
        rw [replaceFirstQ_of_not_mem _ _ hq, foldl_replace_of_not_mem _ _ hq]
        simp [joinQ, joinNumbered]
      | cons u us =>
        have hs : '?' ∉ s := hsegs s (List.mem_cons_self s _)
        have hrest : ∀ t ∈ u :: us, '?' ∉ t := fun t ht => hsegs t (List.mem_cons_of_mem s ht)
        rw [joinQ_cons _ _ (by simp)]
        rw [replaceFirstQ_append_left _ s _ hs]
        rw [replaceFirstQ_cons_q]
        have hnw : '?' ∉ s ++ numberWord p := by
          intro h
          rcases List.mem_append.mp h with h2 | h2
          · exact hs h2
          · exact numberWord_no_q p h2
        rw [show s ++ (numberWord p ++ joinQ (u :: us)) = (s ++ numberWord p) ++ joinQ (u :: us) by
          simp [List.append_assoc]]
        rw [foldl_replace_append_left _ _ _ hnw]
        rw [ih (p + 1) (u :: us) hrest]
        have htake : (s :: u :: us).take (n + 1 + 1) = s :: (u :: us).take (n + 1) := by
          simp [List.take_succ_cons]
        have hdrop : (s :: u :: us).drop (n + 1 + 1) = (u :: us).drop (n + 1) := by
          simp [List.drop_succ_cons]
        have htne : (u :: us).take (n + 1) ≠ [] := by
          simp [List.take_succ_cons]
        rw [htake, hdrop, joinNumbered_cons _ _ _ htne]
        have hlen : (s :: u :: us).length ≤ n + 1 + 1 ↔ (u :: us).length ≤ n + 1 := by
          simp
        by_cases hc : (u :: us).length ≤ n + 1
        · rw [if_pos hc, if_pos (hlen.mpr hc)]
          simp [List.append_assoc]
        · rw [if_neg hc, if_neg (fun h => hc (hlen.mp h))]
          simp [List.append_assoc]

theorem replaceBackticks_count (s : List Char) :
    (replaceBackticks s).count '?' = s.count '?' := by
  induction s with
  | nil => rfl
  | cons c rest ih =>
    simp only [replaceBackticks, List.map_cons, List.count_cons] at *
    have : ((if c = backtickChar then dblQuoteChar else c) == '?') = (c == '?') := by
      by_cases hc : c = backtickChar
      · subst hc
        simp only [if_pos rfl]
        decide
      · rw [if_neg hc]
    rw [this, ih]

theorem backtick_not_mem_replaceBackticks (s : List Char) :
    backtickChar ∉ replaceBackticks s := by
  intro h
  rcases List.mem_map.mp h with ⟨c, _, hc⟩
  by_cases hb : c = backtickChar
  · rw [if_pos hb] at hc
    exact absurd hc (by decide)
  · rw [if_neg hb] at hc
    exact hb hc

/-- Claim C3: for a dialect-neutral query with at most ten placeholder
occurrences, the Dialect B (postgres) rewrite replaces every backtick by a
double quote (no backtick remains) and replaces the placeholder
occurrences, left to right, by the numbered placeholders 1..k (the query
decomposes into its placeholder-free segments joined by the sequentially
numbered placeholders); the Dialect A (mysql) rewrite returns the query
unmodified. -/
theorem fmtQueryForDriver_spec (q : List Char) (hk : q.count '?' ≤ 10) :
    fmtQueryForDriver PostgreSQLDriverName q =
        joinNumbered 1 (splitOnQ (replaceBackticks q)) ∧
      backtickChar ∉ fmtQueryForDriver PostgreSQLDriverName q ∧
      fmtQueryForDriver MySQLDriverName q = q := by
  have hlen : (splitOnQ (replaceBackticks q)).length ≤ 11 := by
    rw [splitOnQ_count, replaceBackticks_count]
    omega
  have hmain : fmtQueryForDriver PostgreSQLDriverName q =
      joinNumbered 1 (splitOnQ (replaceBackticks q)) := by
    rw [fmtQueryForDriver, if_pos rfl]
    rw [← joinQ_splitOnQ (replaceBackticks q)]
    rw [foldl_replace_segments 10 1 _ (splitOnQ_no_q (replaceBackticks q))]
    rw [if_pos hlen, List.take_of_length_le hlen, List.append_nil]
    rw [joinQ_splitOnQ]
  refine ⟨hmain, ?_, ?_⟩
  · rw [hmain]
    intro hmem
    rcases mem_joinNumbered _ _ _ hmem with ⟨t, ht, hbt⟩ | ⟨p, hp⟩
    · exact backtick_not_mem_replaceBackticks q (splitOnQ_chars _ t ht _ hbt)
    · exact (numberWord_chars p _ hp).2 rfl
  · rw [fmtQueryForDriver, if_neg (by decide)]

/-- Witness for claim C3 at a concrete two-placeholder query. -/
theorem fmtQueryForDriver_spec_witness :
    sampleQuery.count '?' ≤ 10 ∧
      (fmtQueryForDriver PostgreSQLDriverName sampleQuery =
          joinNumbered 1 (splitOnQ (replaceBackticks sampleQuery)) ∧
        backtickChar ∉ fmtQueryForDriver PostgreSQLDriverName sampleQuery ∧
        fmtQueryForDriver MySQLDriverName sampleQuery = sampleQuery) :=
  ⟨by decide, fmtQueryForDriver_spec sampleQuery (by decide)⟩

/-- Claim C10: with more than ten placeholder occurrences, the Dialect B
rewrite numbers only the first ten; everything from the eleventh
occurrence on is left as a literal question mark (the output is the first
eleven placeholder-free segments joined by the placeholders 1..10,
followed by the untouched remainder of the query). -/
theorem fmtQueryForDriver_beyond_ten (q : List Char) (hk : 10 < q.count '?') :
    fmtQueryForDriver PostgreSQLDriverName q =
      joinNumbered 1 ((splitOnQ (replaceBackticks q)).take 11) ++
        '?' :: joinQ ((splitOnQ (replaceBackticks q)).drop 11) := by
  have hlen : ¬ (splitOnQ (replaceBackticks q)).length ≤ 11 := by
    rw [splitOnQ_count, replaceBackticks_count]
    omega
  rw [fmtQueryForDriver, if_pos rfl]
  rw [← joinQ_splitOnQ (replaceBackticks q)]
  rw [foldl_replace_segments 10 1 _ (splitOnQ_no_q (replaceBackticks q))]
  rw [if_neg hlen, joinQ_splitOnQ]

/-- Witness for claim C10 at a query of eleven placeholders. -/
theorem fmtQueryForDriver_beyond_ten_witness :
    10 < sampleQueryEleven.count '?' ∧
      fmtQueryForDriver PostgreSQLDriverName sampleQueryEleven =
        joinNumbered 1 ((splitOnQ (replaceBackticks sampleQueryEleven)).take 11) ++
          '?' :: joinQ ((splitOnQ (replaceBackticks sampleQueryEleven)).drop 11) :=
  ⟨by decide, fmtQueryForDriver_beyond_ten sampleQueryEleven (by decide)⟩

/-! ## Error signatures and upsert / create classification -/

theorem checkPrimaryKeyErr_self (drv : String) :
    checkPrimaryKeyErr drv (getPrimaryKeyErr drv) = true := by
  unfold checkPrimaryKeyErr strContains
  exact decide_eq_true (List.infix_refl _)

/-- Claim C1: the mapping upsert's outcome classification — a successful
INSERT is `Inserted`; an INSERT failure carrying the unique-key signature
triggers the UPDATE, whose success is `Updated`, whose foreign-key-signature
failure is `AccountNotFound` with a nil error, and whose other failures are
`Error` with the underlying error surfaced; an INSERT failure without the
unique-key signature is `Error` with the underlying error surfaced. -/
theorem mappingCreate_spec (drv : String) (insertErr updateErr : Option String) :
    (insertErr = none → MappingCreate drv insertErr updateErr = (MappingInserted, none)) ∧
    (∀ e, insertErr = some e → checkPrimaryKeyErr drv e = true →
      (updateErr = none → MappingCreate drv insertErr updateErr = (MappingUpdated, none)) ∧
      (∀ e2, updateErr = some e2 →
        (checkForeignKeyErr drv e2 = true →
          MappingCreate drv insertErr updateErr = (MappingFTPAccountNotFound, none)) ∧
        (checkForeignKeyErr drv e2 = false →
          MappingCreate drv insertErr updateErr = (MappingError, some e2)))) ∧
    (∀ e, insertErr = some e → checkPrimaryKeyErr drv e = false →
      MappingCreate drv insertErr updateErr = (MappingError, some e)) := by
  refine ⟨?_, ?_, ?_⟩
  · rintro rfl
    rfl
  · rintro e rfl hpk
    refine ⟨?_, ?_⟩
    · rintro rfl
      simp [MappingCreate, hpk]
    · rintro e2 rfl
      refine ⟨?_, ?_⟩
      · intro hfk
        simp [MappingCreate, hpk, hfk]
      · intro hfk
        simp [MappingCreate, hpk, hfk]
  · rintro e rfl hpk
    simp [MappingCreate, hpk]

/-- Witness for claim C1: a duplicate-key INSERT failure followed by a
foreign-key UPDATE failure yields `AccountNotFound` with a nil error. -/
theorem mappingCreate_spec_witness :
    MappingCreate PostgreSQLDriverName (some samplePkErr) (some sampleFkErr) =
      (MappingFTPAccountNotFound, none) :=
  ((((mappingCreate_spec PostgreSQLDriverName (some samplePkErr) (some sampleFkErr)).2.1
    samplePkErr rfl (by decide)).2 sampleFkErr rfl).1 (by decide))

/-- Claim C7: an account INSERT that fails with the dialect's
uniqueness-violation signature (in particular when the username already
exists, which the engine model reports with exactly that signature)
yields `ErrFTPAccountExists` and leaves the table unchanged; a failure
without the signature is passed to the caller unmodified. -/
theorem ftpUserCreate_duplicate_spec (drv : String) (accounts : List AccountRow)
    (newId : Nat) (user : FtpUser) :
    ((∃ a ∈ accounts, a.username = user.username) →
      FtpUserCreate drv accounts newId user =
        (accounts, Except.error ErrFTPAccountExists)) ∧
    (∀ e, checkPrimaryKeyErr drv e = false → ftpUserCreateClassifyErr drv e = e) := by
  constructor
  · intro hdup
    have hany : accounts.any (fun a => a.username == user.username) = true := by
      rw [List.any_eq_true]
      obtain ⟨a, ha, he⟩ := hdup
      exact ⟨a, ha, beq_iff_eq.mpr he⟩
    have hins : dbInsertAccount drv accounts newId user =
        Except.error (getPrimaryKeyErr drv) := by
      unfold dbInsertAccount
      rw [if_pos hany]
    have hclass : ftpUserCreateClassifyErr drv (getPrimaryKeyErr drv) =
        ErrFTPAccountExists := by
      unfold ftpUserCreateClassifyErr
      rw [if_pos (checkPrimaryKeyErr_self drv)]
    unfold FtpUserCreate
    rw [hins]
    simp [hclass]
  · intro e he
    unfold ftpUserCreateClassifyErr
    rw [if_neg (by simp [he])]

/-- Witness for claim C7: creating a second account named alice is
rejected with `ErrFTPAccountExists`, the table unchanged, and an opaque
error text passes through the classifier unmodified. -/
theorem ftpUserCreate_duplicate_spec_witness :
    FtpUserCreate PostgreSQLDriverName sampleAccounts 2 sampleNewUser =
        (sampleAccounts, Except.error ErrFTPAccountExists) ∧
      ftpUserCreateClassifyErr PostgreSQLDriverName sampleOpaqueErr = sampleOpaqueErr :=
  ⟨(ftpUserCreate_duplicate_spec PostgreSQLDriverName sampleAccounts 2 sampleNewUser).1
      (by decide),
    (ftpUserCreate_duplicate_spec PostgreSQLDriverName sampleAccounts 2 sampleNewUser).2
      sampleOpaqueErr (by decide)⟩

/-! ## Connection retry loop -/

/-- Claim C2 (code bug): when every one of the ten open attempts fails,
`attemptConnection` still returns a nil error (first component `none`),
because the loop resets `err` to nil before every retry and the post-loop
error check can never fire; it does make exactly ten attempts and sleeps
five seconds after each failure (fifty seconds in total). The claim — and
the spec sentence it quotes — say the last (non-nil) error is returned. -/
theorem attemptConnection_swallows_final_error :
    (∀ n, allFailOutcomes n = some sampleOpaqueErr) ∧
      attemptConnection allFailOutcomes = (none, 10, 50) :=
  ⟨fun _ => rfl, rfl⟩

/-! ## Pagination arithmetic -/

/-- Claim C4 counterexample: at page `2^31 + 1` with page size 2 the
uint32 offset wraps to 0 and is not the mathematical product
`(normalized page - 1) * normalized pageSize = 2^32`. -/
theorem selectionOffset_wraps :
    selectionOffset 2147483649 2 ≠ (max 2147483649 1 - 1) * normPageSize 2 := by
  decide

/-- Claim C4 (amended): the page used is `max page 1`, the page size used
is `pageSize` when positive and 30 otherwise, and the offset is the
product `(normalized page - 1) * normalized pageSize` reduced modulo
`2^32`, which equals the plain product whenever that product is below
`2^32`. -/
theorem selection_paging_normalization (page pageSize : Nat) :
    normPage page = max page 1 ∧
      normPageSize pageSize = (if 0 < pageSize then pageSize else 30) ∧
      selectionOffset page pageSize = ((max page 1 - 1) * normPageSize pageSize) % U32 ∧
      ((max page 1 - 1) * normPageSize pageSize < U32 →
        selectionOffset page pageSize = (max page 1 - 1) * normPageSize pageSize) := by
  have hpage : normPage page = max page 1 := by
    unfold normPage
    split <;> omega
  have hsize : normPageSize pageSize = (if 0 < pageSize then pageSize else 30) := by
    unfold normPageSize
    split
    · rw [if_neg (by omega)]
    · rw [if_pos (by omega)]
  have hoff : selectionOffset page pageSize =
      ((max page 1 - 1) * normPageSize pageSize) % U32 := by
    unfold selectionOffset
    rw [hpage]
  exact ⟨hpage, hsize, hoff, fun hlt => by rw [hoff, Nat.mod_eq_of_lt hlt]⟩

/-- Witness for claim C4 (amended) at page 3, page size 0: the offset is
the unwrapped product `2 * 30`. -/
theorem selection_paging_normalization_witness :
    selectionOffset 3 0 = (max 3 1 - 1) * normPageSize 0 :=
  (selection_paging_normalization 3 0).2.2.2 (by decide)

theorem div_add_ite_eq_ceil (t p : Nat) (hp : 0 < p) :
    t / p + (if t % p > 0 then 1 else 0) = (t + p - 1) / p := by
  rcases Nat.eq_zero_or_pos t with rfl | ht
  · have h0 : (p - 1) / p = 0 := Nat.div_eq_of_lt (by omega)
    simp [h0]
  have hqr : p * (t / p) + t % p = t := Nat.div_add_mod t p
  have hr : t % p < p := Nat.mod_lt t hp
  by_cases hr0 : t % p = 0
  · rw [if_neg (by omega), Nat.add_zero]
    symm
    apply Nat.div_eq_of_lt_le
    · calc t / p * p ≤ t := Nat.div_mul_le_self t p
        _ ≤ t + p - 1 := by omega
    · have h2 : (t / p + 1) * p = p * (t / p) + p := by ring
      rw [h2]
      generalize hm : p * (t / p) = m at hqr
      omega
  · rw [if_pos (by omega)]
    symm
    apply Nat.div_eq_of_lt_le
    · have h2 : (t / p + 1) * p = p * (t / p) + p := by ring
      rw [h2]
      generalize hm : p * (t / p) = m at hqr
      omega
    · have h2 : (t / p + 1 + 1) * p = p * (t / p) + p + p := by ring
      rw [h2]
      generalize hm : p * (t / p) = m at hqr
      omega

/-- Claim C5: for any total count below `2^32`, the total-pages value is
the ceiling of the count divided by the normalized page size (the
division incremented exactly when the remainder is non-zero, without the
uint32 increment ever wrapping), and it is zero for a zero count. -/
theorem selectionTotalPages_eq_ceil (totalItems pageSize : Nat) (h : totalItems < U32) :
    selectionTotalPages totalItems pageSize =
        specCeilDiv totalItems (normPageSize pageSize) ∧
      (totalItems = 0 → selectionTotalPages totalItems pageSize = 0) := by
  have hp : 0 < normPageSize pageSize := by
    unfold normPageSize
    split <;> omega
  have hbound : totalItems / normPageSize pageSize +
      (if totalItems % normPageSize pageSize > 0 then 1 else 0) < U32 := by
    by_cases hr0 : totalItems % normPageSize pageSize = 0
    · rw [if_neg (by omega)]
      have := Nat.div_le_self totalItems (normPageSize pageSize)
      omega
    · rw [if_pos (by omega)]
      have h1 : 1 < normPageSize pageSize := by
        rcases Nat.lt_or_ge 1 (normPageSize pageSize) with h1 | h1
        · exact h1
        · exfalso
          have : normPageSize pageSize = 1 := by omega
          rw [this, Nat.mod_one] at hr0
          exact hr0 rfl
      have h0 : 0 < totalItems := by
        rcases Nat.eq_zero_or_pos totalItems with h0 | h0
        · rw [h0, Nat.zero_mod] at hr0
          exact absurd rfl hr0
        · exact h0
      have := Nat.div_lt_self h0 h1
      omega
  have hval : selectionTotalPages totalItems pageSize =
      totalItems / normPageSize pageSize +
        (if totalItems % normPageSize pageSize > 0 then 1 else 0) := by
    unfold selectionTotalPages
    exact Nat.mod_eq_of_lt hbound
  constructor
  · rw [hval]
    exact div_add_ite_eq_ceil totalItems (normPageSize pageSize) hp
  · rintro rfl
    rw [hval]
    simp

/-- Witness for claim C5 at 31 items with page size 30 (two pages). -/
theorem selectionTotalPages_eq_ceil_witness :
    selectionTotalPages 31 30 = specCeilDiv 31 (normPageSize 30) :=
  (selectionTotalPages_eq_ceil 31 30 (by decide)).1

/-! ## Lookup by username and password discipline on read paths -/

theorem mem_ftpUserLookupRows (accounts : List AccountRow) (mappings : List MappingRow)
    (username : String) (a : AccountRow) (f : String)
    (h : (a, f) ∈ ftpUserLookupRows accounts mappings username) :
    a ∈ accounts ∧ a.username = username := by
  unfold ftpUserLookupRows at h
  rw [List.mem_flatMap] at h
  obtain ⟨a2, ha2, hmem⟩ := h
  rw [List.mem_filterMap] at hmem
  obtain ⟨m, _, heq⟩ := hmem
  by_cases hc : a2.id = m.ftpId ∧ a2.username = username ∧ m.system = billSys1
  · rw [if_pos hc] at heq
    have hpair : a2 = a ∧ m.sysId = f := by
      constructor
      · exact congrArg Prod.fst (Option.some.inj heq)
      · exact congrArg Prod.snd (Option.some.inj heq)
    obtain ⟨rfl, -⟩ := hpair
    exact ⟨ha2, hc.2.1⟩
  · rw [if_neg hc] at heq
    exact absurd heq (by simp)

/-- Claim C6: the lookup selects id, username, description and password of
an account whose username equals the argument (joined with its mappings
under the hard-coded system): zero joined rows yield the NotFound error,
and a returned user carries the matched account's fields, the password
populated from the stored row. -/
theorem ftpUserLookup_eq (accounts : List AccountRow) (mappings : List MappingRow)
    (username : String) :
    FtpUserLookup accounts mappings username =
      match (ftpUserLookupRows accounts mappings username).getLast? with
      | none => Except.error ErrUserNotFound
      | some (a, _) =>
        Except.ok ⟨a.id, a.username, a.description, a.password,
          if (List.map (fun r => r.2) (ftpUserLookupRows accounts mappings username)).length = 1
          then [] else List.map (fun r => r.2) (ftpUserLookupRows accounts mappings username)⟩ :=
  rfl

/-- Claim C6: the lookup selects id, username, description and password of
an account whose username equals the argument (joined with its mappings
under the hard-coded system): zero joined rows yield the NotFound error,
and a returned user carries the matched account's fields, the password
populated from the stored row. -/
theorem ftpUserLookup_spec (accounts : List AccountRow) (mappings : List MappingRow)
    (username : String) :
    (FtpUserLookup accounts mappings username = Except.error ErrUserNotFound ↔
      ftpUserLookupRows accounts mappings username = []) ∧
    (∀ u, FtpUserLookup accounts mappings username = Except.ok u →
      ∃ a f, (a, f) ∈ ftpUserLookupRows accounts mappings username ∧
        a ∈ accounts ∧ a.username = username ∧ u.id = a.id ∧
        u.username = a.username ∧ u.description = a.description ∧
        u.password = a.password) := by
  constructor
  · rw [ftpUserLookup_eq]
    cases hl : (ftpUserLookupRows accounts mappings username).getLast? with
    | none =>
      rw [List.getLast?_eq_none_iff] at hl
      simp [hl]
    | some pair =>
      obtain ⟨a, f⟩ := pair
      constructor
      · intro h
        exact absurd h (by simp)
      · intro h
        rw [h] at hl
        exact absurd hl (by simp)
  · intro u hu
    rw [ftpUserLookup_eq] at hu
    cases hl : (ftpUserLookupRows accounts mappings username).getLast? with
    | none =>
      rw [hl] at hu
      exact absurd hu (by simp)
    | some pair =>
      obtain ⟨a, f⟩ := pair
      rw [hl] at hu
      have hmem : (a, f) ∈ ftpUserLookupRows accounts mappings username := by
        have := List.mem_getLast?_eq_getLast (show (a, f) ∈ _ from hl)
        obtain ⟨hne, heq⟩ := this
        rw [heq]
        exact List.getLast_mem hne
      obtain ⟨ha, hname⟩ :=
        mem_ftpUserLookupRows accounts mappings username a f hmem
      have hu2 : u = ⟨a.id, a.username, a.description, a.password,
          if (List.map (fun r => r.2) (ftpUserLookupRows accounts mappings username)).length = 1
          then [] else List.map (fun r => r.2) (ftpUserLookupRows accounts mappings username)⟩ :=
        (Except.ok.inj hu).symm
      exact ⟨a, f, hmem, ha, hname, by rw [hu2], by rw [hu2], by rw [hu2], by rw [hu2]⟩

/-- Witness for claim C6: looking up alice on the sample tables returns
the stored row, password included. -/
theorem ftpUserLookup_spec_witness :
    ∃ a f, (a, f) ∈ ftpUserLookupRows sampleAccounts sampleMappings aliceName ∧
      a ∈ sampleAccounts ∧ a.username = aliceName ∧ sampleLookupUser.id = a.id ∧
      sampleLookupUser.username = a.username ∧
      sampleLookupUser.description = a.description ∧
      sampleLookupUser.password = a.password :=
  (ftpUserLookup_spec sampleAccounts sampleMappings aliceName).2 sampleLookupUser rfl

/-- Claim C8: the two read paths other than the username lookup never
populate the password: a user returned by get-by-id and every user in a
paged listing has an empty password field. -/
theorem read_paths_empty_password (accounts : List AccountRow) (id page pageSize : Nat)
    (search : String) :
    (∀ u, FtpUserGet accounts id = Except.ok u → u.password = "") ∧
    (∀ u ∈ (FtpUserGetSelection accounts page pageSize search).ftpusers,
      u.password = "") := by
  constructor
  · intro u hu
    unfold FtpUserGet at hu
    cases hfil : accounts.filter (fun a => a.id == id) with
    | nil =>
      rw [hfil] at hu
      exact absurd hu (by simp)
    | cons a rest =>
      rw [hfil] at hu
      have : u = ⟨a.id, a.username, a.description, ""⟩ := (Except.ok.inj hu).symm
      rw [this]
  · intro u hu
    unfold FtpUserGetSelection at hu
    simp only [List.mem_map] at hu
    obtain ⟨a, -, ha⟩ := hu
    rw [← ha]

/-- Witness for claim C8: get-by-id of the sample account returns the
stored row with an empty password. -/
theorem read_paths_empty_password_witness : sampleGotUser.password = "" :=
  (read_paths_empty_password sampleAccounts 1 1 30 "").1 sampleGotUser rfl

/-! ## Constructor argument handling -/

theorem splitSep_sep (rest : List Char) :
    splitSep (':' :: '/' :: '/' :: rest) = [] :: splitSep rest := rfl

theorem splitSep_cons_ne (c : Char) (rest : List Char)
    (hpat : ∀ r1, c = ':' → rest = '/' :: '/' :: r1 → False) :
    splitSep (c :: rest) =
      match splitSep rest with
      | [] => [[c]]
      | t :: ts => (c :: t) :: ts := by
  rw [splitSep.eq_def]
  split
  · rename_i r1 heq
    injection heq with h1 h2
    exact (hpat r1 h1 h2).elim
  · rename_i c2 rest2 hpat2 heq
    injection heq with h1 h2
    subst h1
    subst h2
    rfl
  · rename_i heq
    exact absurd heq (by simp)

theorem splitSep_ne_nil : ∀ s : List Char, splitSep s ≠ [] := by
  intro s
  induction s using splitSep.induct with
  | case1 rest ih =>
    rw [splitSep_sep]
    simp
  | case2 c rest hpat hnil ih => exact absurd hnil ih
  | case3 c rest hpat t ts hcons ih =>
    rw [splitSep_cons_ne c rest hpat, hcons]
    simp
  | case4 => simp [splitSep]

theorem splitSep_of_no_sep : ∀ s : List Char, ¬ sepChars <:+: s → splitSep s = [s] := by
  intro s
  induction s with
  | nil => intro _; rfl
  | cons c rest ih =>
    intro h
    have hninf : ¬ sepChars <:+: rest := fun h2 => h (List.infix_cons_iff.mpr (Or.inr h2))
    have hpat : ∀ r1, c = ':' → rest = '/' :: '/' :: r1 → False := by
      intro r1 hc hr
      refine h (List.infix_cons_iff.mpr (Or.inl ?_))
      rw [hc, hr]
      exact ⟨r1, rfl⟩
    rw [splitSep_cons_ne c rest hpat, ih hninf]

theorem splitSep_length_of_sep : ∀ s : List Char, sepChars <:+: s →
    2 ≤ (splitSep s).length := by
  intro s
  induction s using splitSep.induct with
  | case1 rest ih =>
    intro _
    rw [splitSep_sep]
    have := splitSep_ne_nil rest
    cases hr : splitSep rest with
    | nil => exact absurd hr this
    | cons t ts => simp
  | case2 c rest hpat hnil ih => exact absurd hnil (splitSep_ne_nil rest)
  | case3 c rest hpat t ts hcons ih =>
    intro h
    have hpre : ¬ sepChars <+: (c :: rest) := by
      rintro ⟨t2, ht2⟩
      simp only [sepChars, List.cons_append, List.nil_append] at ht2
      injection ht2 with h1 h2
      exact hpat t2 h1.symm h2.symm
    have hinf : sepChars <:+: rest := (List.infix_cons_iff.mp h).resolve_left hpre
    rw [splitSep_cons_ne c rest hpat, hcons]
    have h2 := ih hinf
    rw [hcons] at h2
    simpa using h2
  | case4 =>
    intro h
    exact absurd h (by decide)

theorem splitSep_append (r : List Char) : ∀ a : List Char, ¬ sepChars <:+: a →
    splitSep (a ++ sepChars ++ r) = a :: splitSep r := by
  intro a
  induction a with
  | nil =>
    intro _
    simpa [sepChars] using splitSep_sep r
  | cons c a2 ih =>
    intro ha
    have hninf : ¬ sepChars <:+: a2 := fun h2 => ha (List.infix_cons_iff.mpr (Or.inr h2))
    have hpat : ∀ r1, c = ':' → a2 ++ sepChars ++ r = '/' :: '/' :: r1 → False := by
      intro r1 hc hr
      cases a2 with
      | nil => simp [sepChars] at hr
      | cons c2 a3 =>
        cases a3 with
        | nil => simp [sepChars] at hr
        | cons c3 a4 =>
          simp only [List.cons_append, List.cons.injEq] at hr
          refine ha (List.infix_cons_iff.mpr (Or.inl ?_))
          rw [hc, hr.1, hr.2.1]
          exact ⟨a4, by simp [sepChars]⟩
    have hstep : (c :: a2) ++ sepChars ++ r = c :: (a2 ++ sepChars ++ r) := by simp
    rw [hstep, splitSep_cons_ne c _ hpat, ih hninf]

/-- Claim C9 counterexample: on the data source `mysql://a://b` the kept
connection string is the text between the first and second separator
(`a`), not the original string with the scheme prefix stripped
(`a://b`). -/
theorem newDB_mysql_twice_counterexample :
    NewDB dsnMysqlTwice = NewDBResult.ok MySQLDriverName dsnMysqlTwiceKept ∧
      dsnMysqlTwice = MySQLDriverName.data ++ sepChars ++ dsnMysqlTwiceStripped ∧
      dsnMysqlTwiceKept ≠ dsnMysqlTwiceStripped := by
  refine ⟨by decide, by decide, by decide⟩

/-- Claim C9 (amended): a data source without the separator, or with a
scheme prefix other than mysql/postgres, is rejected before any
connection is attempted; for the mysql scheme the kept connection string
is the first segment after the separator — equal to the original with
the scheme prefix stripped whenever the separator occurs only once; for
the postgres scheme the whole original string is kept. -/
theorem newDB_spec (dsn : List Char) :
    (¬ sepChars <:+: dsn → NewDB dsn = NewDBResult.errNoProtocol) ∧
      (∀ pre rest, dsn = pre ++ sepChars ++ rest → ¬ sepChars <:+: pre →
        pre ≠ MySQLDriverName.data → pre ≠ PostgreSQLDriverName.data →
        NewDB dsn = NewDBResult.errUnsupported pre) ∧
      (∀ rest, dsn = MySQLDriverName.data ++ sepChars ++ rest → ¬ sepChars <:+: rest →
        NewDB dsn = NewDBResult.ok MySQLDriverName rest) ∧
      (∀ rest, dsn = PostgreSQLDriverName.data ++ sepChars ++ rest →
        NewDB dsn = NewDBResult.ok PostgreSQLDriverName dsn) := by
  refine ⟨?_, ?_, ?_, ?_⟩
  · intro h
    unfold NewDB
    rw [splitSep_of_no_sep dsn h]
  · rintro pre rest rfl hpre hm hp
    unfold NewDB
    rw [splitSep_append rest pre hpre]
    cases hr : splitSep rest with
    | nil => exact absurd hr (splitSep_ne_nil rest)
    | cons t ts =>
      simp only []
      rw [if_neg hm, if_neg hp]
  · rintro rest rfl hrest
    unfold NewDB
    rw [splitSep_append rest MySQLDriverName.data (by decide),
      splitSep_of_no_sep rest hrest]
    simp
  · rintro rest rfl
    unfold NewDB
    rw [splitSep_append rest PostgreSQLDriverName.data (by decide)]
    cases hr : splitSep rest with
    | nil => exact absurd hr (splitSep_ne_nil rest)
    | cons t ts =>
      simp only []
      rw [if_neg (by decide)]
      simp

/-- Witness for claim C9 (amended): the four argument shapes at concrete
inputs. -/
theorem newDB_spec_witness :
    NewDB dsnNoSep = NewDBResult.errNoProtocol ∧
      NewDB (fooScheme ++ sepChars ++ plainRest) = NewDBResult.errUnsupported fooScheme ∧
      NewDB (MySQLDriverName.data ++ sepChars ++ plainRest) =
        NewDBResult.ok MySQLDriverName plainRest ∧
      NewDB (PostgreSQLDriverName.data ++ sepChars ++ plainRest) =
        NewDBResult.ok PostgreSQLDriverName
          (PostgreSQLDriverName.data ++ sepChars ++ plainRest) :=
  ⟨(newDB_spec dsnNoSep).1 (by decide),
    (newDB_spec (fooScheme ++ sepChars ++ plainRest)).2.1 fooScheme plainRest rfl
      (by decide) (by decide) (by decide),
    (newDB_spec (MySQLDriverName.data ++ sepChars ++ plainRest)).2.2.1 plainRest rfl
      (by decide),
    (newDB_spec (PostgreSQLDriverName.data ++ sepChars ++ plainRest)).2.2.2 plainRest rfl⟩

end FtpUserSvc
